import Mathlib

/-!
Verification of the TraitorsAI session core (packages/backend/src/game-manager.ts,
packages/backend/src/index.ts and packages/shared types) against its
natural-language specification.

The GameManager class is embedded shallowly.  JavaScript Date values become
Nat millisecond timestamps, randomUUID and getUniqueName results become
explicit String parameters, and Math.random draws become explicit Nat
parameters (reduced modulo the relevant list length, so every parameter value
corresponds to a possible draw and every possible draw to a parameter value).

The manager keeps per-session mutable state in several maps keyed by the
session id (games, aiPlayers, roundTimers, aiChatTimers).  All operations of
one session are independent of every other session, so the embedding models
the manager restricted to a single session id:

* field game holds the JavaScript Game object (which outlives its removal
  from the games map, because scheduled callbacks keep a reference to it);
* field inRegistry models membership of that object in the games map, so
  lookups inside operations read the game only when inRegistry is true;
* roundTimers and aiChatTimers count scheduled, not yet fired, tracked
  timeouts and intervals for the session (a map entry per the source;
  clearTimeout and clearInterval decrement the count);
* pendingAIVotes and pendingNextRound count the anonymous setTimeout
  callbacks created inside endRound and tallyVotes, which the source never
  stores and therefore never cancels;
* events is the ordered log of everything pushed through the eventEmitter
  callback installed by index.ts.

Timer firings become explicit transition steps, which abstracts real-time
scheduling into nondeterministic interleaving; every trace used below
respects the real delays and is realisable.
-/

namespace TraitorsAI

/-- Phases of a game, from enum GamePhase in packages/shared. -/
inductive GamePhase where
  | Lobby
  | RoundInProgress
  | Voting
  | Elimination
  | GameOver
deriving DecidableEq, Repr

/-- Hidden roles, from enum PlayerRole in packages/shared. -/
inductive PlayerRole where
  | Traitor
  | Faithful
deriving DecidableEq, Repr

/-- Player record, from interface Player in packages/shared. -/
structure Player where
  id : String
  name : String
  role : Option PlayerRole
  isEliminated : Bool
  isReady : Bool
  isAI : Bool
  joinedAt : Nat
deriving DecidableEq, Repr

/-- Chat message record, from interface ChatMessage in packages/shared. -/
structure ChatMessage where
  id : String
  playerId : String
  playerName : String
  message : String
  timestamp : Nat
deriving DecidableEq, Repr

/-- Vote record, from interface Vote in packages/shared. -/
structure Vote where
  voterId : String
  targetId : String
deriving DecidableEq, Repr

/-- Round record, from interface Round in packages/shared. -/
structure Round where
  number : Nat
  startedAt : Nat
  endsAt : Nat
  votes : List Vote
  eliminated : Option String
deriving DecidableEq, Repr

/-- Game record, from interface Game in packages/shared. -/
structure Game where
  id : String
  phase : GamePhase
  players : List Player
  chatMessages : List ChatMessage
  currentRound : Option Round
  rounds : List Round
  createdAt : Nat
  startedAt : Option Nat
  endedAt : Option Nat
deriving DecidableEq, Repr

/-- Domain events pushed through the eventEmitter callback of GameManager. -/
inductive GEvent where
  | roundStarted (gameId : String) (roundNumber : Nat) (endsAt : Nat)
  | phaseChanged (gameId : String) (phase : GamePhase)
  | voteCastE (gameId : String) (voterId : String) (hasVoted : Bool)
  | roundEnded (gameId : String) (eliminatedPlayerId : Option String)
      (eliminatedPlayerName : Option String)
  | chatMessageE (gameId : String) (msgId : String) (playerId : String)
      (playerName : String) (message : String) (timestamp : Nat)
  | gameOverE (gameId : String) (winners : List String) (winningTeam : PlayerRole)
deriving DecidableEq, Repr

/-- State of the GameManager singleton, restricted to one session id. -/
structure MState where
  game : Game
  inRegistry : Bool
  roundTimers : Nat
  aiChatTimers : Nat
  pendingAIVotes : Nat
  pendingNextRound : Nat
  events : List GEvent
deriving DecidableEq, Repr

/-- ROUND_DURATION_MS constant of game-manager.ts. -/
def ROUND_DURATION_MS : Nat := 3 * 60 * 1000

/-- AI_CHAT_INTERVAL_MS constant of game-manager.ts. -/
def AI_CHAT_INTERVAL_MS : Nat := 15 * 1000

/-- Lookup of the session in the games map (this.games.get(gameId)). -/
def lookupGame (s : MState) : Option Game :=
  if s.inRegistry then some s.game else none

/-- Push of one event through the eventEmitter installed by index.ts. -/
def emitE (s : MState) (e : GEvent) : MState :=
  { s with events := s.events ++ [e] }

/-- Method clearGameTimers: clearTimeout plus map delete for the tracked
round timeout, clearInterval plus map delete for the tracked chat interval. -/
def clearGameTimers (s : MState) : MState :=
  { s with roundTimers := s.roundTimers - 1, aiChatTimers := s.aiChatTimers - 1 }

/-- Method getPlayer: find of the first player with the given id. -/
def getPlayer (s : MState) (playerId : String) : Option Player :=
  match lookupGame s with
  | none => none
  | some g => g.players.find? (fun p => p.id = playerId)

/-- Initial manager state produced by createGame for one session: a fresh
Lobby game holding the creating human player. -/
def initState (gameId socketId playerName : String) (now : Nat) : MState :=
  { game :=
      { id := gameId
        phase := GamePhase.Lobby
        players := [{ id := socketId, name := playerName, role := none,
                      isEliminated := false, isReady := false, isAI := false,
                      joinedAt := now }]
        chatMessages := []
        currentRound := none
        rounds := []
        createdAt := now
        startedAt := none
        endedAt := none }
    inRegistry := true
    roundTimers := 0
    aiChatTimers := 0
    pendingAIVotes := 0
    pendingNextRound := 0
    events := [] }

/-- Method joinGame: adds a human player while the game is in the Lobby.
The generated display name is passed in as a parameter. -/
def joinGame (s : MState) (socketId playerName : String) (now : Nat) :
    Option Player × MState :=
  match lookupGame s with
  | none => (none, s)
  | some g =>
    if g.phase ≠ GamePhase.Lobby then (none, s)
    else
      let player : Player :=
        { id := socketId, name := playerName, role := none,
          isEliminated := false, isReady := false, isAI := false, joinedAt := now }
      (some player, { s with game := { g with players := g.players ++ [player] } })

/-- Update of the first list element satisfying the predicate, modelling a
JavaScript find followed by an in-place mutation of the found object. -/
def updateFirst (pred : Player → Bool) (upd : Player → Player) :
    List Player → List Player
  | [] => []
  | p :: ps => if pred p then upd p :: ps else p :: updateFirst pred upd ps

/-- Method setPlayerReady. -/
def setPlayerReady (s : MState) (playerId : String) (isReady : Bool) :
    Bool × MState :=
  match lookupGame s with
  | none => (false, s)
  | some g =>
    if g.phase ≠ GamePhase.Lobby then (false, s)
    else if (g.players.find? (fun p => p.id = playerId)).isNone then (false, s)
    else
      (true, { s with game :=
        { g with players :=
            (updateFirst (fun p => p.id = playerId)
              (fun p => { p with isReady := isReady }) g.players) } })

/-- Method areAllPlayersReady. -/
def areAllPlayersReady (s : MState) : Bool :=
  match lookupGame s with
  | none => false
  | some g =>
    if g.players.length = 0 then false
    else g.players.all (fun p => p.isReady)

/-- Fresh autonomous player as built inside addAIPlayers. -/
def mkAIPlayer (playerId playerName : String) (now : Nat) : Player :=
  { id := playerId, name := playerName, role := none, isEliminated := false,
    isReady := true, isAI := true, joinedAt := now }

/-- Method addAIPlayers with count 2, ids and generated names passed in. -/
def addAIPlayers (g : Game) (id1 name1 id2 name2 : String) (now : Nat) : Game :=
  { g with players := g.players ++ [mkAIPlayer id1 name1 now, mkAIPlayer id2 name2 now] }

/-- Number of traitors assigned by assignRoles (local constant traitorCount). -/
def traitorCount : Nat := 2

/-- Method assignRoles.  The source copies the players array, shuffles the
copy with a random comparator, and writes a role through each shared player
reference: the objects at the first traitorCount positions of the shuffle
become Traitor, the rest Faithful.  The shuffle is passed in as the list
shuffled (constrained to a permutation of the players where the embedding is
used); because player ids are distinct, the object identity test of the
source coincides with membership by id among the first traitorCount entries
of the shuffle, and the original array order is unchanged. -/
def assignRoles (g : Game) (shuffled : List Player) : Game :=
  { g with players := g.players.map (fun p =>
      { p with role := some (if (shuffled.take traitorCount).any (fun q => q.id = p.id)
          then PlayerRole.Traitor else PlayerRole.Faithful) }) }

/-- Method startNewRound: opens the next round on the captured game object
(no registry lookup), emits round:started, and schedules the tracked
round-expiry timeout. -/
def startNewRound (s : MState) (now : Nat) : MState :=
  let g := s.game
  let roundNumber := g.rounds.length + 1
  let endsAt := now + ROUND_DURATION_MS
  let round : Round :=
    { number := roundNumber, startedAt := now, endsAt := endsAt,
      votes := [], eliminated := none }
  let s1 := { s with game :=
    { g with currentRound := some round, phase := GamePhase.RoundInProgress } }
  let s2 := emitE s1 (GEvent.roundStarted g.id roundNumber endsAt)
  { s2 with roundTimers := s2.roundTimers + 1 }

/-- Method endRound, the body of the round-expiry timeout: looks the session
up in the registry, moves it to Voting, emits the phase change, and schedules
the anonymous (untracked) timeout that will make the AI players vote. -/
def endRound (s : MState) : MState :=
  match lookupGame s with
  | none => s
  | some g =>
    if g.currentRound.isNone then s
    else
      let s1 := { s with game := { g with phase := GamePhase.Voting } }
      let s2 := emitE s1 (GEvent.phaseChanged g.id GamePhase.Voting)
      { s2 with pendingAIVotes := s2.pendingAIVotes + 1 }

/-- Vote replacement inside castVote: drop any previous vote of the voter,
then append the new vote. -/
def recordVote (votes : List Vote) (voterId targetId : String) : List Vote :=
  votes.filter (fun v => v.voterId ≠ voterId) ++ [{ voterId := voterId, targetId := targetId }]

/-- Increment of one key of the vote-count map, keeping first-insertion
order of keys as a JavaScript Map does. -/
def bumpCount : List (String × Nat) → String → List (String × Nat)
  | [], key => [(key, 1)]
  | (k, n) :: rest, key =>
    if k = key then (k, n + 1) :: rest else (k, n) :: bumpCount rest key

/-- Vote counting loop of tallyVotes, producing the voteCounts map as an
association list in first-insertion order. -/
def countVotes (votes : List Vote) : List (String × Nat) :=
  votes.foldl (fun counts v => bumpCount counts v.targetId) []

/-- Maximum-search loop of tallyVotes: starts from zero votes and no
candidate and replaces the candidate only on a strictly larger count, so the
first key reaching the maximum wins. -/
def maxTarget (counts : List (String × Nat)) : Nat × Option String :=
  counts.foldl
    (fun acc kv => if kv.2 > acc.1 then (kv.2, some kv.1) else acc)
    (0, none)

/-- Method checkGameOver: win evaluation over living role counts, and on a
win the transition to GameOver, timer clearing and the game:over event. -/
def checkGameOver (s : MState) (now : Nat) : Bool × MState :=
  let g := s.game
  let alivePlayers := g.players.filter (fun p => ¬p.isEliminated)
  let aliveTraitors := alivePlayers.filter (fun p => p.role = some PlayerRole.Traitor)
  let aliveFaithful := alivePlayers.filter (fun p => p.role = some PlayerRole.Faithful)
  let verdict1 : Bool × Option PlayerRole :=
    if aliveTraitors.length ≥ aliveFaithful.length ∧ aliveTraitors.length > 0
    then (true, some PlayerRole.Traitor) else (false, none)
  let verdict : Bool × Option PlayerRole :=
    if aliveTraitors.length = 0 then (true, some PlayerRole.Faithful) else verdict1
  match verdict with
  | (true, some winningTeam) =>
    let winners := (g.players.filter (fun p => p.role = some winningTeam)).map (fun p => p.id)
    let s1 := { s with game := { g with phase := GamePhase.GameOver, endedAt := some now } }
    let s2 := clearGameTimers s1
    (true, emitE s2 (GEvent.gameOverE g.id winners winningTeam))
  | (gameOver, _) => (gameOver, s)

/-- Elimination step of tallyVotes: the first target holding the maximum
count, when that count is positive, has its eliminated flag flipped and is
recorded on the round, and round:ended is emitted; on a zero maximum the
no-elimination round:ended is emitted. -/
def tallyElim (s : MState) (g : Game) (round : Round) : MState :=
  match (maxTarget (countVotes round.votes)).2 with
  | some eid =>
    match g.players.find? (fun p => p.id = eid) with
    | some p =>
      let g1 := { g with
        players := updateFirst (fun q => q.id = eid)
          (fun q => { q with isEliminated := true }) g.players,
        currentRound := some { round with eliminated := some eid } }
      emitE { s with game := g1 } (GEvent.roundEnded g.id (some eid) (some p.name))
    | none => s
  | none => emitE s (GEvent.roundEnded g.id none none)

/-- Archival step of tallyVotes: the (possibly updated) current round is
pushed onto the history and the current round is cleared. -/
def tallyArchive (afterElim : MState) (round : Round) : MState :=
  let g2 := afterElim.game
  let archivedRound := g2.currentRound.getD round
  { afterElim with game :=
    { g2 with rounds := g2.rounds ++ [archivedRound], currentRound := none } }

/-- Closing step of tallyVotes: the win check runs, and when the game goes
on the anonymous (untracked) cool-down timeout for the next round is
scheduled. -/
def tallyFinish (s3 : MState) (now : Nat) : MState :=
  match checkGameOver s3 now with
  | (true, s4) => s4
  | (false, s4) => { s4 with pendingNextRound := s4.pendingNextRound + 1 }

def tallyVotes (s : MState) (now : Nat) : MState :=
  match lookupGame s with
  | none => s
  | some g =>
    match g.currentRound with
    | none => s
    | some round =>
      tallyFinish (tallyArchive (tallyElim s g round) round) now

/-- State of the manager right after castVote has replaced the vote of the
voter and emitted the anonymised vote:cast event, before the all-voted check.
Only meaningful under the guards of castVote; named so the synchronous-tally
behaviour of castVote can be stated. -/
def castVoteRecorded (s : MState) (g : Game) (round : Round)
    (voterId targetId : String) : MState :=
  let round1 := { round with votes := recordVote round.votes voterId targetId }
  let g1 := { g with currentRound := some round1 }
  emitE { s with game := g1 } (GEvent.voteCastE g.id voterId true)

/-- Method castVote.  Returns the boolean result of the source together with
the successor state; on the vote that makes the recorded votes as many as
the living players it calls tallyVotes synchronously. -/
def castVote (s : MState) (voterId targetId : String) (now : Nat) :
    Bool × MState :=
  match lookupGame s with
  | none => (false, s)
  | some g =>
    if g.phase ≠ GamePhase.Voting then (false, s)
    else match g.currentRound with
    | none => (false, s)
    | some round =>
      match g.players.find? (fun p => p.id = voterId),
            g.players.find? (fun p => p.id = targetId) with
      | some voter, some target =>
        if voter.isEliminated ∨ target.isEliminated then (false, s)
        else
          let s1 := castVoteRecorded s g round voterId targetId
          let alivePlayers := s1.game.players.filter (fun p => ¬p.isEliminated)
          let votes1 := recordVote round.votes voterId targetId
          if votes1.length = alivePlayers.length then (true, tallyVotes s1 now)
          else (true, s1)
      | _, _ => (false, s)

/-- Method addChatMessage: requires the session in the registry and a living
author, then appends the message.  The generated uuid is a parameter. -/
def addChatMessage (s : MState) (playerId message msgId : String) (now : Nat) :
    Option ChatMessage × MState :=
  match lookupGame s with
  | none => (none, s)
  | some g =>
    match g.players.find? (fun p => p.id = playerId) with
    | none => (none, s)
    | some player =>
      if player.isEliminated then (none, s)
      else
        let chatMessage : ChatMessage :=
          { id := msgId, playerId := playerId, playerName := player.name,
            message := message, timestamp := now }
        (some chatMessage,
          { s with game := { g with chatMessages := g.chatMessages ++ [chatMessage] } })

/-- Fallback player for positional list access; never selected because every
access below is taken modulo a positive length. -/
def dummyPlayer : Player :=
  { id := "", name := "", role := none, isEliminated := false,
    isReady := false, isAI := false, joinedAt := 0 }

/-- Method chooseVoteTarget of class AIPlayer (ai-player.ts).  The
Math.random draw is the pick parameter, reduced modulo the candidate count. -/
def chooseVoteTarget (player : Player) (g : Game) (pick : Nat) : Option String :=
  if player.role.isNone ∨ player.isEliminated then none
  else
    let activePlayers := g.players.filter (fun p => ¬p.isEliminated ∧ p.id ≠ player.id)
    if activePlayers.length = 0 then none
    else if player.role = some PlayerRole.Traitor then
      let faithful := activePlayers.filter (fun p => p.role = some PlayerRole.Faithful)
      if faithful.length > 0 then
        some ((faithful.getD (pick % faithful.length) dummyPlayer).id)
      else some ((activePlayers.getD (pick % activePlayers.length) dummyPlayer).id)
    else some ((activePlayers.getD (pick % activePlayers.length) dummyPlayer).id)

/-- Method makeAIVotes, the body of the anonymous timeout scheduled by
endRound: the living AI players (listed before any vote is cast) each choose
a target and cast their vote through castVote.  One random pick per AI
player is passed in. -/
def makeAIVotes (s : MState) (picks : List Nat) (now : Nat) : MState :=
  let ais := s.game.players.filter (fun p => p.isAI ∧ ¬p.isEliminated)
  (ais.zip picks).foldl
    (fun st pp =>
      match chooseVoteTarget pp.1 st.game pp.2 with
      | some targetId => (castVote st pp.1.id targetId now).2
      | none => st)
    s

/-- Method removePlayer: filters the player out and, when the session has no
players left, clears the tracked timers and deletes the session from the
registry. -/
def removePlayer (s : MState) (playerId : String) : MState :=
  match lookupGame s with
  | none => s
  | some g =>
    let g1 := { g with players := g.players.filter (fun p => p.id ≠ playerId) }
    if g1.players.length = 0 then
      clearGameTimers { s with game := g1, inRegistry := false }
    else { s with game := g1 }

/-- Method startGame: no phase guard, only existence and a nonempty player
list; adds the two AI players, marks the game started, assigns roles along
the given shuffle, opens round one, and starts the chat interval. -/
def startGame (s : MState) (id1 name1 id2 name2 : String)
    (shuffled : List Player) (now : Nat) : Option Game × MState :=
  match lookupGame s with
  | none => (none, s)
  | some g =>
    if g.players.length < 1 then (none, s)
    else
      let g1 := addAIPlayers g id1 name1 id2 name2 now
      let g2 := { g1 with phase := GamePhase.RoundInProgress, startedAt := some now }
      let g3 := assignRoles g2 shuffled
      let s1 := startNewRound { s with game := g3 } now
      let s2 := { s1 with aiChatTimers := s1.aiChatTimers + 1 }
      (some s2.game, s2)

/-- Socket handler for game:start in index.ts: rejects when not every player
is ready, then delegates to startGame and reports success when a game was
returned. -/
def gameStartHandler (s : MState) (id1 name1 id2 name2 : String)
    (shuffled : List Player) (now : Nat) : Bool × MState :=
  if ¬areAllPlayersReady s then (false, s)
  else
    match startGame s id1 name1 id2 name2 shuffled now with
    | (some _, s1) => (true, s1)
    | (none, s1) => (false, s1)

/-- Entry of the known-roles list returned by getKnownRoles. -/
structure KnownRole where
  playerId : String
  playerName : String
  role : PlayerRole
deriving DecidableEq, Repr

/-- Method getKnownRoles: a Traitor requester sees the role of every player
whose role is assigned; any other requester (missing, roleless or Faithful)
sees nothing.  The non-null assertion of the source on the filtered roles is
rendered with getD. -/
def getKnownRoles (s : MState) (playerId : String) : List KnownRole :=
  match lookupGame s, getPlayer s playerId with
  | some g, some player =>
    match player.role with
    | none => []
    | some role =>
      if role = PlayerRole.Traitor then
        (g.players.filter (fun p => p.role.isSome)).map (fun p =>
          { playerId := p.id, playerName := p.name,
            role := p.role.getD PlayerRole.Faithful })
      else []
  | _, _ => []

/-- Body of the repeating interval installed by startAIChatTimer: when the
session is gone or over, the tracked timers are cleared; during a round each
living AI player posts a generated message through addChatMessage and the
result is broadcast.  Message texts and uuids are parameters, one pair per
living AI player. -/
def aiChatTick (s : MState) (msgs : List (String × String)) (now : Nat) : MState :=
  match lookupGame s with
  | none => clearGameTimers s
  | some g =>
    if g.phase = GamePhase.GameOver then clearGameTimers s
    else if g.phase ≠ GamePhase.RoundInProgress then s
    else
      let ais := g.players.filter (fun p => p.isAI ∧ ¬p.isEliminated)
      (ais.zip msgs).foldl
        (fun st pm =>
          match addChatMessage st pm.1.id pm.2.1 pm.2.2 now with
          | (some cm, st1) =>
            emitE st1 (GEvent.chatMessageE st1.game.id cm.id cm.playerId
              cm.playerName cm.message cm.timestamp)
          | (none, st1) => st1)
        s

/-- Transition relation of the session core: externally delivered intents
(join, ready, start via its socket handler, vote, chat, remove) and the
firings of the four kinds of scheduled callbacks, each guarded by a pending
scheduled callback of that kind.  Generated ids, names, shuffles, message
texts and random draws are free parameters of the step; the shuffle of a
start step is constrained to a permutation of the player list it shuffles. -/
inductive Step : MState → MState → Prop
  | joinStep (s : MState) (socketId playerName : String) (now : Nat) :
      Step s (joinGame s socketId playerName now).2
  | readyStep (s : MState) (playerId : String) (isReady : Bool) :
      Step s (setPlayerReady s playerId isReady).2
  | startStep (s : MState) (id1 name1 id2 name2 : String)
      (shuffled : List Player) (now : Nat)
      (hsh : shuffled.Perm (addAIPlayers s.game id1 name1 id2 name2 now).players) :
      Step s (gameStartHandler s id1 name1 id2 name2 shuffled now).2
  | voteStep (s : MState) (voterId targetId : String) (now : Nat) :
      Step s (castVote s voterId targetId now).2
  | chatStep (s : MState) (playerId message msgId : String) (now : Nat) :
      Step s (addChatMessage s playerId message msgId now).2
  | removeStep (s : MState) (playerId : String) :
      Step s (removePlayer s playerId)
  | roundTimerStep (s : MState) (h : s.roundTimers > 0) :
      Step s (endRound { s with roundTimers := s.roundTimers - 1 })
  | aiVotesStep (s : MState) (picks : List Nat) (now : Nat)
      (h : s.pendingAIVotes > 0) :
      Step s (makeAIVotes { s with pendingAIVotes := s.pendingAIVotes - 1 } picks now)
  | nextRoundStep (s : MState) (now : Nat) (h : s.pendingNextRound > 0) :
      Step s (startNewRound { s with pendingNextRound := s.pendingNextRound - 1 } now)
  | chatTickStep (s : MState) (msgs : List (String × String)) (now : Nat)
      (h : s.aiChatTimers > 0) :
      Step s (aiChatTick s msgs now)

/-- Reachability of a manager state from another by any number of steps. -/
def Reachable (s t : MState) : Prop :=
  Relation.ReflTransGen Step s t

/-- Relation between round archives along a step: the earlier archive is an
initial segment of the later one, so closed rounds are only ever appended
and never changed or removed afterwards. -/
def RoundsExtend (a b : List Round) : Prop :=
  ∃ tail, b = a ++ tail

/-- Round and phase coupling that actually holds on the code: an open round
forces phase RoundInProgress or Voting, and phase RoundInProgress forces an
open round.  During the post-tally cool-down the phase stays Voting with no
open round, so the converse direction for Voting fails. -/
def RoundInv (s : MState) : Prop :=
  (s.game.currentRound.isSome = true →
    s.game.phase = GamePhase.RoundInProgress ∨ s.game.phase = GamePhase.Voting) ∧
  (s.game.phase = GamePhase.RoundInProgress → s.game.currentRound.isSome = true)

/-- Vote set of a round after a sequence of successful vote recordings,
starting from the empty vote set a fresh round carries. -/
def castSequence (ops : List Vote) : List Vote :=
  ops.foldl (fun acc op => recordVote acc op.voterId op.targetId) []

/-- Concrete four-player parity state used as the witness input of the win
rule: two living Traitors and two living Faithful. -/
def parityState : MState :=
  { game :=
      { id := "g", phase := GamePhase.Voting,
        players := [
          { id := "t1", name := "A", role := some PlayerRole.Traitor,
            isEliminated := false, isReady := true, isAI := false, joinedAt := 0 },
          { id := "t2", name := "B", role := some PlayerRole.Traitor,
            isEliminated := false, isReady := true, isAI := true, joinedAt := 0 },
          { id := "f1", name := "C", role := some PlayerRole.Faithful,
            isEliminated := false, isReady := true, isAI := false, joinedAt := 0 },
          { id := "f2", name := "D", role := some PlayerRole.Faithful,
            isEliminated := false, isReady := true, isAI := true, joinedAt := 0 }],
        chatMessages := [], currentRound := none, rounds := [],
        createdAt := 0, startedAt := some 0, endedAt := none }
    inRegistry := true, roundTimers := 0, aiChatTimers := 1,
    pendingAIVotes := 0, pendingNextRound := 0, events := [] }

/-- Living-membership test matching the voter and target validation of
castVote: the first player found under the id must exist and not be
eliminated. -/
def isLivingPlayer (g : Game) (playerId : String) : Bool :=
  match g.players.find? (fun p => p.id = playerId) with
  | some p => !p.isEliminated
  | none => false

/-- Concrete open round used by the castVote witness: one vote already
recorded, one vote missing. -/
def votingRound : Round :=
  { number := 1, startedAt := 0, endsAt := ROUND_DURATION_MS,
    votes := [{ voterId := "p2", targetId := "p1" }], eliminated := none }

/-- Concrete two-player Voting state used by the castVote witness. -/
def votingState : MState :=
  { game :=
      { id := "g", phase := GamePhase.Voting,
        players := [
          { id := "p1", name := "A", role := some PlayerRole.Traitor,
            isEliminated := false, isReady := true, isAI := false, joinedAt := 0 },
          { id := "p2", name := "B", role := some PlayerRole.Faithful,
            isEliminated := false, isReady := true, isAI := false, joinedAt := 0 }],
        chatMessages := [], currentRound := some votingRound, rounds := [],
        createdAt := 0, startedAt := some 0, endedAt := none }
    inRegistry := true, roundTimers := 0, aiChatTimers := 1,
    pendingAIVotes := 0, pendingNextRound := 0, events := [] }

/-- Concrete finished game with a living author, used to show that
addChatMessage has no phase guard. -/
def gameOverChatState : MState :=
  { game :=
      { id := "g", phase := GamePhase.GameOver,
        players := [
          { id := "p1", name := "A", role := some PlayerRole.Faithful,
            isEliminated := false, isReady := true, isAI := false, joinedAt := 0 },
          { id := "p2", name := "B", role := some PlayerRole.Traitor,
            isEliminated := true, isReady := true, isAI := false, joinedAt := 0 }],
        chatMessages := [], currentRound := none, rounds := [],
        createdAt := 0, startedAt := some 0, endedAt := some 1 }
    inRegistry := true, roundTimers := 0, aiChatTimers := 0,
    pendingAIVotes := 0, pendingNextRound := 0, events := [] }

/-- Concrete open round realising the tie vector of the specification: the
targets A and B hold three votes each, A receiving its first vote first. -/
def tieRound : Round :=
  { number := 1, startedAt := 0, endsAt := ROUND_DURATION_MS,
    votes := [
      { voterId := "v1", targetId := "A" },
      { voterId := "v2", targetId := "A" },
      { voterId := "A", targetId := "A" },
      { voterId := "v3", targetId := "B" },
      { voterId := "v4", targetId := "B" },
      { voterId := "B", targetId := "B" }],
    eliminated := none }

/-- Concrete six-player Voting state whose open round carries the tied
votes. -/
def tieState : MState :=
  { game :=
      { id := "g", phase := GamePhase.Voting,
        players := [
          { id := "A", name := "Alice", role := some PlayerRole.Traitor,
            isEliminated := false, isReady := true, isAI := false, joinedAt := 0 },
          { id := "B", name := "Bob", role := some PlayerRole.Traitor,
            isEliminated := false, isReady := true, isAI := false, joinedAt := 0 },
          { id := "v1", name := "Cleo", role := some PlayerRole.Faithful,
            isEliminated := false, isReady := true, isAI := false, joinedAt := 0 },
          { id := "v2", name := "Dana", role := some PlayerRole.Faithful,
            isEliminated := false, isReady := true, isAI := false, joinedAt := 0 },
          { id := "v3", name := "Evan", role := some PlayerRole.Faithful,
            isEliminated := false, isReady := true, isAI := true, joinedAt := 0 },
          { id := "v4", name := "Fran", role := some PlayerRole.Faithful,
            isEliminated := false, isReady := true, isAI := true, joinedAt := 0 }],
        chatMessages := [], currentRound := some tieRound, rounds := [],
        createdAt := 0, startedAt := some 0, endedAt := none }
    inRegistry := true, roundTimers := 0, aiChatTimers := 1,
    pendingAIVotes := 0, pendingNextRound := 0, events := [] }

/-- Trace for the double start: a single ready human in the lobby. -/
def c2s0 : MState := initState "g" "h1" "Alex" 0

/-- Trace for the double start: the human reports ready. -/
def c2s1 : MState := (setPlayerReady c2s0 "h1" true).2

/-- Shuffle of the first start call: the order the players already have. -/
def c2shuffle1 : List Player :=
  (addAIPlayers c2s1.game "a1" "Blair" "a2" "Casey" 10).players

/-- State after the first game:start call. -/
def c2s2 : MState := (gameStartHandler c2s1 "a1" "Blair" "a2" "Casey" c2shuffle1 10).2

/-- Shuffle of the second start call: the reversed player list, which puts
the two newest AI players first. -/
def c2shuffle2 : List Player :=
  (addAIPlayers c2s2.game "a3" "Drew" "a4" "Emery" 20).players.reverse

/-- State after the second game:start call on the already started session. -/
def c2s3 : MState := (gameStartHandler c2s2 "a3" "Drew" "a4" "Emery" c2shuffle2 20).2

/-- Shared trace: fresh session of the human h1. -/
def t0 : MState := initState "g" "h1" "Alex" 0

/-- Shared trace: the human h2 joins in the lobby. -/
def t1 : MState := (joinGame t0 "h2" "Blair" 1).2

/-- Shared trace: h1 reports ready. -/
def t2 : MState := (setPlayerReady t1 "h1" true).2

/-- Shared trace: h2 reports ready. -/
def t3 : MState := (setPlayerReady t2 "h2" true).2

/-- Shared trace: shuffle of the start call, keeping the existing order, so
the two humans become the Traitors. -/
def t4shuffle : List Player :=
  (addAIPlayers t3.game "a1" "Casey" "a2" "Drew" 4).players

/-- Shared trace: the game starts; round one opens. -/
def t4 : MState := (gameStartHandler t3 "a1" "Casey" "a2" "Drew" t4shuffle 4).2

/-- Shared trace: the round-expiry timer fires; Voting begins. -/
def t5 : MState := endRound { t4 with roundTimers := t4.roundTimers - 1 }

/-- Shared trace: h1 votes (for h1). -/
def t6 : MState := (castVote t5 "h1" "h1" 200000).2

/-- Shared trace: h2 votes for h1. -/
def t7 : MState := (castVote t6 "h2" "h1" 200001).2

/-- Shared trace: the delayed AI votes fire; both AI players vote for h1,
the fourth vote triggers the synchronous tally, h1 (a Traitor) is
eliminated, one Traitor remains, the game continues and the cool-down
timeout for the next round is scheduled. -/
def t8 : MState :=
  makeAIVotes { t7 with pendingAIVotes := t7.pendingAIVotes - 1 } [0, 0] 200002

/-- Shared trace: h1 disconnects. -/
def t9 : MState := removePlayer t8 "h1"

/-- Shared trace: h2 disconnects. -/
def t10 : MState := removePlayer t9 "h2"

/-- Shared trace: a1 is removed. -/
def t11 : MState := removePlayer t10 "a1"

/-- Shared trace: a2 is removed; the session empties, the registry entry is
deleted and the tracked timers are cleared, but the anonymous cool-down
timeout of the tally survives. -/
def t12 : MState := removePlayer t11 "a2"

/-- Shared trace: the surviving cool-down timeout fires against the
torn-down session and emits round:started. -/
def t13 : MState :=
  startNewRound { t12 with pendingNextRound := t12.pendingNextRound - 1 } 205000

/-- View of the round-relevant game fields that most operations leave
untouched: phase, current round and round archive. -/
def SameGameView (s s' : MState) : Prop :=
  s'.game.phase = s.game.phase ∧ s'.game.currentRound = s.game.currentRound ∧
  s'.game.rounds = s.game.rounds

theorem recordVote_voterIds_nodup (votes : List Vote) (voterId targetId : String)
    (h : (votes.map Vote.voterId).Nodup) :
    ((recordVote votes voterId targetId).map Vote.voterId).Nodup := by
  unfold recordVote
  rw [List.map_append]
  apply List.Nodup.append
  · exact h.sublist ((List.filter_sublist votes).map Vote.voterId)
  · simp
  · intro x hx hx'
    simp only [List.map_cons, List.map_nil, List.mem_singleton] at hx'
    subst hx'
    rcases List.mem_map.mp hx with ⟨v, hv, hvid⟩
    rcases List.mem_filter.mp hv with ⟨-, hcond⟩
    simp only [decide_eq_true_eq] at hcond
    exact hcond hvid

theorem castSequence_voterIds_nodup (ops : List Vote) :
    ((castSequence ops).map Vote.voterId).Nodup := by
  suffices h : ∀ acc : List Vote, (acc.map Vote.voterId).Nodup →
      ((ops.foldl (fun acc op => recordVote acc op.voterId op.targetId) acc).map
        Vote.voterId).Nodup by
    exact h [] (by simp)
  induction ops with
  | nil => intro acc hacc; simpa using hacc
  | cons op rest ih =>
    intro acc hacc
    exact ih _ (recordVote_voterIds_nodup acc op.voterId op.targetId hacc)

/-- C8: within one round, a later vote from the same voter replaces the
earlier one: after any sequence of recorded votes the vote set holds at most
one vote per voter, and the tally input size equals the number of distinct
voters. -/
theorem castVote_replaces_not_duplicates (ops : List Vote) :
    ((castSequence ops).map Vote.voterId).Nodup ∧
    (castSequence ops).length = ((castSequence ops).map Vote.voterId).dedup.length := by
  refine ⟨castSequence_voterIds_nodup ops, ?_⟩
  rw [List.Nodup.dedup (castSequence_voterIds_nodup ops), List.length_map]

theorem assignRoles_pred_count (g : Game) (shuffled : List Player) (role : PlayerRole) :
    (assignRoles g shuffled).players.countP (fun p => p.role = some role) =
      g.players.countP (fun p =>
        (if (shuffled.take traitorCount).any (fun q => q.id = p.id)
          then PlayerRole.Traitor else PlayerRole.Faithful) = role) := by
  unfold assignRoles
  rw [List.countP_map]
  apply List.countP_congr
  intro p _
  by_cases h : (shuffled.take traitorCount).any (fun q => q.id = p.id) = true <;>
    simp [Function.comp, h]

/-- C7: on any participant list of size at least two, with the distinct ids
the manager generates, role assignment along any shuffle produces exactly
two Traitor roles, makes every remaining participant Faithful, and leaves
every participant with an assigned role. -/
theorem assignRoles_exactly_two_traitors (g : Game) (shuffled : List Player)
    (hperm : shuffled.Perm g.players)
    (hids : (g.players.map Player.id).Nodup)
    (hlen : 2 ≤ g.players.length) :
    (assignRoles g shuffled).players.countP
        (fun p => p.role = some PlayerRole.Traitor) = 2 ∧
    (assignRoles g shuffled).players.countP
        (fun p => p.role = some PlayerRole.Faithful) = g.players.length - 2 ∧
    ∀ p ∈ (assignRoles g shuffled).players, p.role.isSome = true := by
  have hnodS : (shuffled.map Player.id).Nodup :=
    ((hperm.map Player.id).nodup_iff).mpr hids
  have hlenS : 2 ≤ shuffled.length := by rw [hperm.length_eq]; exact hlen
  obtain ⟨a, b, rest, hsh⟩ : ∃ a b rest, shuffled = a :: b :: rest := by
    match shuffled, hlenS with
    | x :: y :: r, _ => exact ⟨x, y, r, rfl⟩
  subst hsh
  simp only [List.map_cons, List.nodup_cons, List.mem_cons, List.mem_map] at hnodS
  obtain ⟨hA, hB, -⟩ := hnodS
  push_neg at hA hB
  obtain ⟨hab, haRest⟩ := hA
  have htake : (a :: b :: rest).take traitorCount = [a, b] := by
    simp [traitorCount]
  have hpredA : ((a :: b :: rest).take traitorCount).any (fun q => q.id = a.id) = true := by
    rw [htake]; simp
  have hpredB : ((a :: b :: rest).take traitorCount).any (fun q => q.id = b.id) = true := by
    rw [htake]; simp
  have hpredRest : ∀ x ∈ rest,
      ((a :: b :: rest).take traitorCount).any (fun q => q.id = x.id) = false := by
    intro x hx
    rw [htake]
    simp only [List.any_cons, List.any_nil, Bool.or_false, Bool.or_eq_false_iff,
      decide_eq_false_iff_not]
    exact ⟨fun h => haRest x hx h.symm, fun h => hB x hx h.symm⟩
  have hcount : ∀ role : PlayerRole,
      (assignRoles g (a :: b :: rest)).players.countP (fun p => p.role = some role) =
        (a :: b :: rest).countP (fun p =>
          (if ((a :: b :: rest).take traitorCount).any (fun q => q.id = p.id)
            then PlayerRole.Traitor else PlayerRole.Faithful) = role) := by
    intro role
    rw [assignRoles_pred_count, hperm.countP_eq]
  refine ⟨?_, ?_, ?_⟩
  · rw [hcount PlayerRole.Traitor]
    rw [List.countP_cons_of_pos _ _ (by simp [hpredA]),
        List.countP_cons_of_pos _ _ (by simp [hpredB])]
    have hrest0 : rest.countP (fun p =>
        (if ((a :: b :: rest).take traitorCount).any (fun q => q.id = p.id)
          then PlayerRole.Traitor else PlayerRole.Faithful) = PlayerRole.Traitor) = 0 := by
      rw [List.countP_eq_zero]
      intro x hx
      simp [hpredRest x hx]
    rw [hrest0]
  · rw [hcount PlayerRole.Faithful]
    rw [List.countP_cons_of_neg _ _ (by simp [hpredA]),
        List.countP_cons_of_neg _ _ (by simp [hpredB])]
    have hrestAll : rest.countP (fun p =>
        (if ((a :: b :: rest).take traitorCount).any (fun q => q.id = p.id)
          then PlayerRole.Traitor else PlayerRole.Faithful) = PlayerRole.Faithful)
        = rest.length := by
      rw [List.countP_eq_length]
      intro x hx
      simp [hpredRest x hx]
    rw [hrestAll, ← hperm.length_eq]
    simp
  · intro p hp
    unfold assignRoles at hp
    rcases List.mem_map.mp hp with ⟨q, -, hq⟩
    subst hq
    rfl

/-- C7 witness: a concrete four-player lobby, shuffled so that the two AI
players come first, gets exactly two Traitors and two Faithful. -/
theorem assignRoles_exactly_two_traitors_witness :
    (assignRoles
        { id := "g", phase := GamePhase.Lobby,
          players := [
            { id := "h1", name := "Alex", role := none, isEliminated := false,
              isReady := true, isAI := false, joinedAt := 0 },
            { id := "h2", name := "Blair", role := none, isEliminated := false,
              isReady := true, isAI := false, joinedAt := 0 },
            { id := "a1", name := "Casey", role := none, isEliminated := false,
              isReady := true, isAI := true, joinedAt := 0 },
            { id := "a2", name := "Drew", role := none, isEliminated := false,
              isReady := true, isAI := true, joinedAt := 0 }],
          chatMessages := [], currentRound := none, rounds := [],
          createdAt := 0, startedAt := none, endedAt := none }
        [{ id := "a1", name := "Casey", role := none, isEliminated := false,
           isReady := true, isAI := true, joinedAt := 0 },
         { id := "a2", name := "Drew", role := none, isEliminated := false,
           isReady := true, isAI := true, joinedAt := 0 },
         { id := "h1", name := "Alex", role := none, isEliminated := false,
           isReady := true, isAI := false, joinedAt := 0 },
         { id := "h2", name := "Blair", role := none, isEliminated := false,
           isReady := true, isAI := false, joinedAt := 0 }]).players.countP
      (fun p => p.role = some PlayerRole.Traitor) = 2 := by
  exact (assignRoles_exactly_two_traitors _ _ (by decide) (by decide) (by decide)).1

/-- C6: the win rule of checkGameOver.  With T the living Traitor count and
F the living Faithful count: the game ends exactly when T is positive and at
least F, or T is zero; in the first case the Traitors win, in the second the
Faithful win, and the emitted winners are exactly the ids of the players,
living or eliminated, whose role is the winning one; otherwise the state is
untouched and play continues. -/
theorem checkGameOver_win_rule (s : MState) (now : Nat) (T F : Nat)
    (hT : T = ((s.game.players.filter (fun p => ¬p.isEliminated)).filter
      (fun p => p.role = some PlayerRole.Traitor)).length)
    (hF : F = ((s.game.players.filter (fun p => ¬p.isEliminated)).filter
      (fun p => p.role = some PlayerRole.Faithful)).length) :
    ((checkGameOver s now).1 = true ↔ (T ≥ F ∧ T > 0) ∨ T = 0) ∧
    (T > 0 → T ≥ F →
      (checkGameOver s now).2.game.phase = GamePhase.GameOver ∧
      ∃ w, (checkGameOver s now).2.events =
          s.events ++ [GEvent.gameOverE s.game.id w PlayerRole.Traitor] ∧
        ∀ pid, pid ∈ w ↔ ∃ p ∈ s.game.players,
          p.role = some PlayerRole.Traitor ∧ p.id = pid) ∧
    (T = 0 →
      (checkGameOver s now).2.game.phase = GamePhase.GameOver ∧
      ∃ w, (checkGameOver s now).2.events =
          s.events ++ [GEvent.gameOverE s.game.id w PlayerRole.Faithful] ∧
        ∀ pid, pid ∈ w ↔ ∃ p ∈ s.game.players,
          p.role = some PlayerRole.Faithful ∧ p.id = pid) ∧
    (T > 0 → T < F → checkGameOver s now = (false, s)) := by
  subst hT hF
  by_cases hT0 : ((s.game.players.filter (fun p => ¬p.isEliminated)).filter
      (fun p => p.role = some PlayerRole.Traitor)).length = 0
  · have hred : checkGameOver s now =
        (true,
          emitE (clearGameTimers { s with game :=
            { s.game with phase := GamePhase.GameOver, endedAt := some now } })
            (GEvent.gameOverE s.game.id
              ((s.game.players.filter
                (fun p => p.role = some PlayerRole.Faithful)).map (fun p => p.id))
              PlayerRole.Faithful)) := by
      simp only [checkGameOver]
      rw [if_pos hT0]
    refine ⟨?_, ?_, ?_, ?_⟩
    · rw [hred]; exact ⟨fun _ => Or.inr hT0, fun _ => rfl⟩
    · intro h _; exact absurd hT0 (Nat.pos_iff_ne_zero.mp h)
    · intro _
      rw [hred]
      refine ⟨rfl,
        (s.game.players.filter (fun p => p.role = some PlayerRole.Faithful)).map
          (fun p => p.id), ?_, ?_⟩
      · simp [emitE, clearGameTimers]
      intro pid
      simp only [List.mem_map, List.mem_filter, decide_eq_true_eq]
      constructor
      · rintro ⟨p, ⟨hp, hrole⟩, hid⟩; exact ⟨p, hp, hrole, hid⟩
      · rintro ⟨p, hp, hrole, hid⟩; exact ⟨p, ⟨hp, hrole⟩, hid⟩
    · intro h _; exact absurd hT0 (Nat.pos_iff_ne_zero.mp h)
  · by_cases hTF : ((s.game.players.filter (fun p => ¬p.isEliminated)).filter
        (fun p => p.role = some PlayerRole.Faithful)).length ≤
      ((s.game.players.filter (fun p => ¬p.isEliminated)).filter
        (fun p => p.role = some PlayerRole.Traitor)).length
    · have hred : checkGameOver s now =
          (true,
            emitE (clearGameTimers { s with game :=
              { s.game with phase := GamePhase.GameOver, endedAt := some now } })
              (GEvent.gameOverE s.game.id
                ((s.game.players.filter
                  (fun p => p.role = some PlayerRole.Traitor)).map (fun p => p.id))
                PlayerRole.Traitor)) := by
        simp only [checkGameOver]
        rw [if_neg hT0, if_pos ⟨hTF, Nat.pos_of_ne_zero hT0⟩]
      refine ⟨?_, ?_, ?_, ?_⟩
      · rw [hred]
        exact ⟨fun _ => Or.inl ⟨hTF, Nat.pos_of_ne_zero hT0⟩, fun _ => rfl⟩
      · intro _ _
        rw [hred]
        refine ⟨rfl,
          (s.game.players.filter (fun p => p.role = some PlayerRole.Traitor)).map
            (fun p => p.id), ?_, ?_⟩
        · simp [emitE, clearGameTimers]
        intro pid
        simp only [List.mem_map, List.mem_filter, decide_eq_true_eq]
        constructor
        · rintro ⟨p, ⟨hp, hrole⟩, hid⟩; exact ⟨p, hp, hrole, hid⟩
        · rintro ⟨p, hp, hrole, hid⟩; exact ⟨p, ⟨hp, hrole⟩, hid⟩
      · intro h; exact absurd h hT0
      · intro _ h; exact absurd hTF (by omega)
    · have hred : checkGameOver s now = (false, s) := by
        simp only [checkGameOver]
        rw [if_neg hT0, if_neg (fun hc => hTF hc.1)]
      refine ⟨?_, ?_, ?_, ?_⟩
      · rw [hred]
        constructor
        · intro h; exact absurd h Bool.false_ne_true
        · rintro (⟨hge, -⟩ | h0)
          · exact absurd hge hTF
          · exact absurd h0 hT0
      · intro _ hge; exact absurd hge hTF
      · intro h; exact absurd h hT0
      · intro _ _; exact hred

/-- C6 witness: with two living Traitors and two living Faithful the
Traitors win. -/
theorem checkGameOver_win_rule_witness :
    (checkGameOver parityState 5).1 = true := by
  have h := (checkGameOver_win_rule parityState 5 2 2 (by decide) (by decide)).1
  exact h.mpr (Or.inl (by omega))

theorem castVote_noRegistry (s : MState) (v t : String) (now : Nat)
    (h : lookupGame s = none) : castVote s v t now = (false, s) := by
  simp [castVote, h]

theorem castVote_notVoting (s : MState) (g : Game) (v t : String) (now : Nat)
    (h : lookupGame s = some g) (hph : g.phase ≠ GamePhase.Voting) :
    castVote s v t now = (false, s) := by
  simp [castVote, h, hph]

theorem castVote_noRound (s : MState) (g : Game) (v t : String) (now : Nat)
    (h : lookupGame s = some g) (hph : g.phase = GamePhase.Voting)
    (hr : g.currentRound = none) : castVote s v t now = (false, s) := by
  simp [castVote, h, hph, hr]

theorem castVote_badPlayers (s : MState) (g : Game) (round : Round)
    (v t : String) (now : Nat)
    (h : lookupGame s = some g) (hph : g.phase = GamePhase.Voting)
    (hr : g.currentRound = some round)
    (hbad : isLivingPlayer g v = false ∨ isLivingPlayer g t = false) :
    castVote s v t now = (false, s) := by
  rcases hv : g.players.find? (fun p => p.id = v) with _ | voter
  · simp [castVote, h, hph, hr, hv]
  · rcases ht : g.players.find? (fun p => p.id = t) with _ | target
    · simp [castVote, h, hph, hr, hv, ht]
    · have helim : voter.isEliminated = true ∨ target.isEliminated = true := by
        unfold isLivingPlayer at hbad
        rw [hv, ht] at hbad
        rcases hbad with h1 | h1
        · exact Or.inl (by simpa using h1)
        · exact Or.inr (by simpa using h1)
      simp only [castVote, h, hph, hr, hv, ht]
      rw [if_pos helim]
      simp

theorem castVote_success (s : MState) (g : Game) (round : Round)
    (voter target : Player) (v t : String) (now : Nat)
    (h : lookupGame s = some g) (hph : g.phase = GamePhase.Voting)
    (hr : g.currentRound = some round)
    (hv : g.players.find? (fun p => p.id = v) = some voter)
    (ht : g.players.find? (fun p => p.id = t) = some target)
    (helim : voter.isEliminated = false) (helim2 : target.isEliminated = false) :
    castVote s v t now =
      (true,
        if (recordVote round.votes v t).length =
            ((castVoteRecorded s g round v t).game.players.filter
              (fun p => ¬p.isEliminated)).length
        then tallyVotes (castVoteRecorded s g round v t) now
        else castVoteRecorded s g round v t) := by
  have hne : ¬(voter.isEliminated = true ∨ target.isEliminated = true) := by
    simp [helim, helim2]
  simp only [castVote, h, hph, hr, hv, ht, ne_eq, not_true_eq_false,
    Bool.false_eq_true, if_false, castVoteRecorded]
  rw [if_neg hne]
  split <;> rfl

/-- C5: castVote succeeds exactly when the session is in the registry, in
the Voting phase with an open round, and both voter and target are living
players of the session; any failure returns synchronously and records
nothing; a success that makes the recorded votes as many as the living
players runs the tally synchronously inside the call, and otherwise only
records the vote. -/
theorem castVote_guards_and_sync_tally (s : MState) (v t : String) (now : Nat) :
    ((castVote s v t now).1 = true ↔
      s.inRegistry = true ∧ s.game.phase = GamePhase.Voting ∧
      s.game.currentRound.isSome = true ∧
      isLivingPlayer s.game v = true ∧ isLivingPlayer s.game t = true) ∧
    ((castVote s v t now).1 = false → (castVote s v t now).2 = s) ∧
    (∀ round, s.inRegistry = true → s.game.currentRound = some round →
      (castVote s v t now).1 = true →
      (castVote s v t now).2 =
        (if (recordVote round.votes v t).length =
            (s.game.players.filter (fun p => ¬p.isEliminated)).length
         then tallyVotes (castVoteRecorded s s.game round v t) now
         else castVoteRecorded s s.game round v t)) := by
  by_cases hreg : s.inRegistry = true
  · have hlk : lookupGame s = some s.game := by simp [lookupGame, hreg]
    by_cases hph : s.game.phase = GamePhase.Voting
    · rcases hr : s.game.currentRound with _ | round
      · rw [castVote_noRound s s.game v t now hlk hph hr]
        refine ⟨by simp [hr], fun _ => rfl, ?_⟩
        intro round _ hr' _
        exact absurd hr' (by simp)
      · cases hlv : isLivingPlayer s.game v
        · rw [castVote_badPlayers s s.game round v t now hlk hph hr (Or.inl hlv)]
          refine ⟨by simp [hlv], fun _ => rfl, ?_⟩
          intro round' _ _ hsucc
          exact absurd hsucc (by simp)
        · cases hlt : isLivingPlayer s.game t
          · rw [castVote_badPlayers s s.game round v t now hlk hph hr (Or.inr hlt)]
            refine ⟨by simp [hlt], fun _ => rfl, ?_⟩
            intro round' _ _ hsucc
            exact absurd hsucc (by simp)
          · obtain ⟨voter, hv, helimv⟩ :
                ∃ voter, s.game.players.find? (fun p => p.id = v) = some voter ∧
                  voter.isEliminated = false := by
              unfold isLivingPlayer at hlv
              rcases hfv : s.game.players.find? (fun p => p.id = v) with _ | voter
              · rw [hfv] at hlv; exact absurd hlv (by simp)
              · rw [hfv] at hlv
                exact ⟨voter, hfv, by simpa using hlv⟩
            obtain ⟨target, ht, helimt⟩ :
                ∃ target, s.game.players.find? (fun p => p.id = t) = some target ∧
                  target.isEliminated = false := by
              unfold isLivingPlayer at hlt
              rcases hft : s.game.players.find? (fun p => p.id = t) with _ | target
              · rw [hft] at hlt; exact absurd hlt (by simp)
              · rw [hft] at hlt
                exact ⟨target, hft, by simpa using hlt⟩
            rw [castVote_success s s.game round voter target v t now hlk hph hr hv ht
              helimv helimt]
            refine ⟨by simp [hreg, hph, hr, hlv, hlt], by simp, ?_⟩
            intro round' _ hr' _
            cases hr'
            have hpl : (castVoteRecorded s s.game round v t).game.players =
                s.game.players := by
              simp [castVoteRecorded, emitE]
            rw [hpl]
    · rw [castVote_notVoting s s.game v t now hlk hph]
      refine ⟨by simp [hph], fun _ => rfl, ?_⟩
      intro round' _ _ hsucc
      exact absurd hsucc (by simp)
  · have hlk : lookupGame s = none := by simp [lookupGame, hreg]
    rw [castVote_noRegistry s v t now hlk]
    refine ⟨by simp [hreg], fun _ => rfl, ?_⟩
    intro round' hreg' _ _
    exact absurd hreg' hreg

/-- C5 witness: in the concrete Voting state the final vote succeeds and the
call returns the synchronous tally of the recorded votes. -/
theorem castVote_guards_and_sync_tally_witness :
    (castVote votingState "p1" "p2" 7).1 = true ∧
    (castVote votingState "p1" "p2" 7).2 =
      (if (recordVote votingRound.votes "p1" "p2").length =
          (votingState.game.players.filter (fun p => ¬p.isEliminated)).length
       then tallyVotes (castVoteRecorded votingState votingState.game votingRound "p1" "p2") 7
       else castVoteRecorded votingState votingState.game votingRound "p1" "p2") := by
  have h := castVote_guards_and_sync_tally votingState "p1" "p2" 7
  have h1 : (castVote votingState "p1" "p2" 7).1 = true := h.1.mpr (by decide)
  exact ⟨h1, h.2.2 votingRound (by decide) (by decide) h1⟩

/-- C9 counterexample: in a GameOver session a living author can still post
chat; the message is accepted and appended, so posting does not fail in the
terminal phase as claimed. -/
theorem addChatMessage_accepts_in_gameOver :
    gameOverChatState.game.phase = GamePhase.GameOver ∧
    (addChatMessage gameOverChatState "p1" "gg" "m1" 9).1.isSome = true ∧
    (addChatMessage gameOverChatState "p1" "gg" "m1" 9).2.game.chatMessages =
      [{ id := "m1", playerId := "p1", playerName := "A", message := "gg",
         timestamp := 9 }] := by
  refine ⟨rfl, ?_, ?_⟩ <;> decide

theorem addChatMessage_noRegistry (s : MState) (pid msg mid : String) (now : Nat)
    (h : lookupGame s = none) : addChatMessage s pid msg mid now = (none, s) := by
  simp [addChatMessage, h]

/-- C9 amended: addChatMessage succeeds exactly when the session is in the
registry and the author is a living player, in every phase including
GameOver; failures change nothing and success appends exactly the one
message. -/
theorem addChatMessage_success_iff (s : MState) (pid msg mid : String) (now : Nat) :
    ((addChatMessage s pid msg mid now).1.isSome = true ↔
      s.inRegistry = true ∧ isLivingPlayer s.game pid = true) ∧
    ((addChatMessage s pid msg mid now).1.isSome = false →
      (addChatMessage s pid msg mid now).2 = s) ∧
    (∀ cm, (addChatMessage s pid msg mid now).1 = some cm →
      (addChatMessage s pid msg mid now).2.game.chatMessages =
        s.game.chatMessages ++ [cm]) := by
  by_cases hreg : s.inRegistry = true
  · have hlk : lookupGame s = some s.game := by simp [lookupGame, hreg]
    rcases hf : s.game.players.find? (fun p => p.id = pid) with _ | player
    · have hred : addChatMessage s pid msg mid now = (none, s) := by
        simp [addChatMessage, hlk, hf]
      rw [hred]
      refine ⟨?_, fun _ => rfl, ?_⟩
      · simp [isLivingPlayer, hf]
      · intro cm hcm; exact absurd hcm (by simp)
    · cases helim : player.isEliminated
      · have hred : addChatMessage s pid msg mid now =
            (some { id := mid, playerId := pid, playerName := player.name,
                    message := msg, timestamp := now },
              { s with game := { s.game with chatMessages := s.game.chatMessages ++
                [{ id := mid, playerId := pid, playerName := player.name,
                   message := msg, timestamp := now }] } }) := by
          simp only [addChatMessage, hlk, hf]
          rw [if_neg (by simp [helim])]
        rw [hred]
        refine ⟨by simp [hreg, isLivingPlayer, hf, helim], by simp, ?_⟩
        intro cm hcm
        cases hcm
        rfl
      · have hred : addChatMessage s pid msg mid now = (none, s) := by
          simp only [addChatMessage, hlk, hf]
          rw [if_pos helim]
        rw [hred]
        refine ⟨by simp [isLivingPlayer, hf, helim], fun _ => rfl, ?_⟩
        intro cm hcm; exact absurd hcm (by simp)
  · have hlk : lookupGame s = none := by simp [lookupGame, hreg]
    rw [addChatMessage_noRegistry s pid msg mid now hlk]
    refine ⟨by simp [hreg], fun _ => rfl, ?_⟩
    intro cm hcm; exact absurd hcm (by simp)

/-- C9 witness: in the GameOver state of the counterexample the living
author posts successfully, as the amended rule predicts. -/
theorem addChatMessage_success_iff_witness :
    (addChatMessage gameOverChatState "p1" "gg" "m1" 9).1.isSome = true :=
  (addChatMessage_success_iff gameOverChatState "p1" "gg" "m1" 9).1.mpr (by decide)

/-- C10: hidden-role visibility of getKnownRoles.  A requester who is
missing, roleless or Faithful receives the empty list, an output that does
not depend on the role assignment of the other players; a Traitor requester
receives one entry per role-assigned player, self and eliminated players
included, carrying the true role. -/
theorem getKnownRoles_visibility (s : MState) (pid : String) :
    ((∀ p, getPlayer s pid = some p → p.role ≠ some PlayerRole.Traitor) →
      getKnownRoles s pid = []) ∧
    (∀ s' : MState,
      (∀ p, getPlayer s pid = some p → p.role ≠ some PlayerRole.Traitor) →
      (∀ p, getPlayer s' pid = some p → p.role ≠ some PlayerRole.Traitor) →
      getKnownRoles s pid = getKnownRoles s' pid) ∧
    (∀ p, s.inRegistry = true → getPlayer s pid = some p →
      p.role = some PlayerRole.Traitor →
      ((getKnownRoles s pid).length =
        s.game.players.countP (fun q => q.role.isSome)) ∧
      (∀ q ∈ s.game.players, ∀ r, q.role = some r →
        ({ playerId := q.id, playerName := q.name, role := r } : KnownRole) ∈
          getKnownRoles s pid) ∧
      (∀ e ∈ getKnownRoles s pid, ∃ q ∈ s.game.players,
        q.id = e.playerId ∧ q.name = e.playerName ∧ q.role = some e.role)) := by
  have hempty : (∀ p, getPlayer s pid = some p → p.role ≠ some PlayerRole.Traitor) →
      getKnownRoles s pid = [] := by
    intro hnot
    unfold getKnownRoles
    rcases hlk : lookupGame s with _ | g
    · rfl
    · rcases hgp : getPlayer s pid with _ | player
      · rfl
      · rcases hrole : player.role with _ | role
        · simp [hrole]
        · have hne : role ≠ PlayerRole.Traitor := by
            intro h
            exact hnot player hgp (by rw [hrole, h])
          simp [hrole, hne]
  refine ⟨hempty, ?_, ?_⟩
  · intro s' h1 h2
    rw [hempty h1]
    have hempty' : (∀ p, getPlayer s' pid = some p → p.role ≠ some PlayerRole.Traitor) →
        getKnownRoles s' pid = [] := by
      intro hnot
      unfold getKnownRoles
      rcases hlk : lookupGame s' with _ | g
      · rfl
      · rcases hgp : getPlayer s' pid with _ | player
        · rfl
        · rcases hrole : player.role with _ | role
          · simp [hrole]
          · have hne : role ≠ PlayerRole.Traitor := by
              intro h
              exact hnot player hgp (by rw [hrole, h])
            simp [hrole, hne]
    rw [hempty' h2]
  · intro p hreg hgp hrole
    have hlk : lookupGame s = some s.game := by simp [lookupGame, hreg]
    have hred : getKnownRoles s pid =
        (s.game.players.filter (fun q => q.role.isSome)).map (fun q =>
          { playerId := q.id, playerName := q.name,
            role := q.role.getD PlayerRole.Faithful }) := by
      unfold getKnownRoles
      rw [hlk, hgp]
      simp [hrole]
    refine ⟨?_, ?_, ?_⟩
    · rw [hred, List.length_map, List.countP_eq_length_filter]
    · intro q hq r hr
      rw [hred]
      refine List.mem_map.mpr ⟨q, List.mem_filter.mpr ⟨hq, by simp [hr]⟩, ?_⟩
      simp [hr]
    · intro e he
      rw [hred] at he
      rcases List.mem_map.mp he with ⟨q, hq, hqe⟩
      rcases List.mem_filter.mp hq with ⟨hqmem, hqsome⟩
      refine ⟨q, hqmem, ?_, ?_, ?_⟩
      · rw [← hqe]
      · rw [← hqe]
      · rw [← hqe]
        simp only []
        rcases hqr : q.role with _ | r
        · rw [hqr] at hqsome; exact absurd hqsome (by simp)
        · simp [hqr]

/-- C10 witness: in the parity state the Traitor t1 sees all four roles and
the Faithful f1 sees none. -/
theorem getKnownRoles_visibility_witness :
    getKnownRoles parityState "f1" = [] ∧
    (getKnownRoles parityState "t1").length =
      parityState.game.players.countP (fun q => q.role.isSome) := by
  constructor
  · exact (getKnownRoles_visibility parityState "f1").1 (by decide)
  · exact ((getKnownRoles_visibility parityState "t1").2.2
      { id := "t1", name := "A", role := some PlayerRole.Traitor,
        isEliminated := false, isReady := true, isAI := false, joinedAt := 0 }
      (by decide) (by decide) (by decide)).1

/-- C1: on the tied vote vector A=3, B=3 the tally does not produce the
no-elimination outcome: the first target to reach the maximum count is
eliminated, its eliminated flag flips, the archived round records it, and
round:ended reports it, contradicting the documented tie policy. -/
theorem tallyVotes_tie_eliminates_first_target :
    countVotes tieRound.votes = [("A", 3), ("B", 3)] ∧
    (tallyVotes tieState 0).game.players.map (fun p => (p.id, p.isEliminated)) =
      [("A", true), ("B", false), ("v1", false), ("v2", false),
        ("v3", false), ("v4", false)] ∧
    (tallyVotes tieState 0).game.rounds.map (fun r => r.eliminated) = [some "A"] ∧
    (tallyVotes tieState 0).events =
      [GEvent.roundEnded "g" (some "A") (some "Alice")] := by
  refine ⟨?_, ?_, ?_, ?_⟩ <;> decide

/-- C2: startGame carries no phase guard.  After a successful start the
session is in RoundInProgress, yet a second game:start call passes the
ready check, reports success, appends two further AI players, reassigns
roles (flipping the human from Traitor to Faithful), and leaves two tracked
round timers and two chat intervals, instead of failing with an
invalid-phase error and leaving the session unchanged. -/
theorem startGame_succeeds_outside_lobby :
    c2s2.game.phase = GamePhase.RoundInProgress ∧
    areAllPlayersReady c2s2 = true ∧
    (gameStartHandler c2s2 "a3" "Drew" "a4" "Emery" c2shuffle2 20).1 = true ∧
    c2s2.game.players.map (fun p => (p.id, p.role)) =
      [("h1", some PlayerRole.Traitor), ("a1", some PlayerRole.Traitor),
        ("a2", some PlayerRole.Faithful)] ∧
    c2s3.game.players.map (fun p => (p.id, p.role)) =
      [("h1", some PlayerRole.Faithful), ("a1", some PlayerRole.Faithful),
        ("a2", some PlayerRole.Faithful), ("a3", some PlayerRole.Traitor),
        ("a4", some PlayerRole.Traitor)] ∧
    c2s3.roundTimers = 2 ∧ c2s3.aiChatTimers = 2 := by
  refine ⟨?_, ?_, ?_, ?_, ?_, ?_, ?_⟩ <;> decide

theorem reach_t8 : Reachable t0 t8 :=
  Relation.ReflTransGen.head (Step.joinStep t0 "h2" "Blair" 1)
    (Relation.ReflTransGen.head (Step.readyStep t1 "h1" true)
      (Relation.ReflTransGen.head (Step.readyStep t2 "h2" true)
        (Relation.ReflTransGen.head
          (Step.startStep t3 "a1" "Casey" "a2" "Drew" t4shuffle 4 (List.Perm.refl _))
          (Relation.ReflTransGen.head (Step.roundTimerStep t4 (by decide))
            (Relation.ReflTransGen.head (Step.voteStep t5 "h1" "h1" 200000)
              (Relation.ReflTransGen.head (Step.voteStep t6 "h2" "h1" 200001)
                (Relation.ReflTransGen.single
                  (Step.aiVotesStep t7 [0, 0] 200002 (by decide)))))))))

/-- C3 counterexample: the post-tally cool-down state is reachable, its
phase is Voting, and it has no open round, refuting the if-and-only-if form
of the round-existence invariant. -/
theorem voting_phase_with_no_open_round :
    Reachable t0 t8 ∧ t8.game.phase = GamePhase.Voting ∧
    t8.game.currentRound = none :=
  ⟨reach_t8, by decide, by decide⟩

theorem reach_t12 : Reachable t0 t12 :=
  Relation.ReflTransGen.trans reach_t8
    (Relation.ReflTransGen.head (Step.removeStep t8 "h1")
      (Relation.ReflTransGen.head (Step.removeStep t9 "h2")
        (Relation.ReflTransGen.head (Step.removeStep t10 "a1")
          (Relation.ReflTransGen.single (Step.removeStep t11 "a2")))))

/-- C4: teardown does not silence the session.  In the reachable state t12
the last participant has been removed, the session is out of the registry
and both tracked timer kinds are cleared, yet the cool-down callback
scheduled by the tally is still pending; its firing is a step of the system
and emits a round:started event for the torn-down session id. -/
theorem teardown_does_not_stop_all_timers :
    Reachable t0 t12 ∧
    t12.inRegistry = false ∧ t12.game.players = [] ∧
    t12.roundTimers = 0 ∧ t12.aiChatTimers = 0 ∧
    t12.pendingNextRound = 1 ∧
    Step t12 t13 ∧
    t13.events = t12.events ++
      [GEvent.roundStarted "g" 2 (205000 + ROUND_DURATION_MS)] :=
  ⟨reach_t12, by decide, by decide, by decide, by decide, by decide,
    Step.nextRoundStep t12 205000 (by decide), by decide⟩

theorem lookupGame_eq (s : MState) (g : Game) (h : lookupGame s = some g) :
    g = s.game := by
  unfold lookupGame at h
  split at h
  · exact (Option.some.inj h).symm
  · exact absurd h (by simp)

theorem roundInv_of_view {s s' : MState} (hv : SameGameView s s')
    (h : RoundInv s) : RoundInv s' := by
  obtain ⟨hp, hr, -⟩ := hv
  unfold RoundInv at h ⊢
  rw [hp, hr]
  exact h

theorem roundsExtend_refl (a : List Round) : RoundsExtend a a := ⟨[], by simp⟩

theorem roundsExtend_trans {a b c : List Round} (h1 : RoundsExtend a b)
    (h2 : RoundsExtend b c) : RoundsExtend a c := by
  obtain ⟨t1, rfl⟩ := h1
  obtain ⟨t2, rfl⟩ := h2
  exact ⟨t1 ++ t2, by simp⟩

theorem roundsExtend_of_view {s s' : MState} (hv : SameGameView s s') :
    RoundsExtend s.game.rounds s'.game.rounds :=
  ⟨[], by rw [hv.2.2]; simp⟩

theorem joinGame_view (s : MState) (a b : String) (now : Nat) :
    SameGameView s (joinGame s a b now).2 := by
  unfold joinGame SameGameView
  split
  next => exact ⟨rfl, rfl, rfl⟩
  next g heq =>
    obtain rfl := lookupGame_eq s g heq
    split
    next => exact ⟨rfl, rfl, rfl⟩
    next => exact ⟨rfl, rfl, rfl⟩

theorem sameGameView_trans {s1 s2 s3 : MState} (h1 : SameGameView s1 s2)
    (h2 : SameGameView s2 s3) : SameGameView s1 s3 :=
  ⟨h2.1.trans h1.1, h2.2.1.trans h1.2.1, h2.2.2.trans h1.2.2⟩

theorem setPlayerReady_view (s : MState) (pid : String) (b : Bool) :
    SameGameView s (setPlayerReady s pid b).2 := by
  unfold setPlayerReady SameGameView
  split
  next => exact ⟨rfl, rfl, rfl⟩
  next g heq =>
    obtain rfl := lookupGame_eq s g heq
    split
    next => exact ⟨rfl, rfl, rfl⟩
    next =>
      split
      next => exact ⟨rfl, rfl, rfl⟩
      next => exact ⟨rfl, rfl, rfl⟩

theorem addChatMessage_view (s : MState) (pid msg mid : String) (now : Nat) :
    SameGameView s (addChatMessage s pid msg mid now).2 := by
  unfold addChatMessage SameGameView
  split
  next => exact ⟨rfl, rfl, rfl⟩
  next g heq =>
    obtain rfl := lookupGame_eq s g heq
    split
    next => exact ⟨rfl, rfl, rfl⟩
    next =>
      split
      next => exact ⟨rfl, rfl, rfl⟩
      next => exact ⟨rfl, rfl, rfl⟩

theorem removePlayer_view (s : MState) (pid : String) :
    SameGameView s (removePlayer s pid) := by
  unfold SameGameView
  simp only [removePlayer]
  split
  next => exact ⟨rfl, rfl, rfl⟩
  next g heq =>
    obtain rfl := lookupGame_eq s g heq
    split
    next => exact ⟨rfl, rfl, rfl⟩
    next => exact ⟨rfl, rfl, rfl⟩

theorem foldl_view {α : Type} (f : MState → α → MState)
    (hf : ∀ st x, SameGameView st (f st x)) :
    ∀ (l : List α) (st : MState), SameGameView st (l.foldl f st) := by
  intro l
  induction l with
  | nil => intro st; exact ⟨rfl, rfl, rfl⟩
  | cons x xs ih =>
    intro st
    exact sameGameView_trans (hf st x) (ih (f st x))

theorem foldl_preserves {α : Type} (P : MState → Prop) (f : MState → α → MState)
    (hf : ∀ st x, P st → P (f st x)) :
    ∀ (l : List α) (st : MState), P st → P (l.foldl f st) := by
  intro l
  induction l with
  | nil => intro st h; exact h
  | cons x xs ih => intro st h; exact ih (f st x) (hf st x h)

theorem foldl_roundsExtend {α : Type} (f : MState → α → MState)
    (hf : ∀ st x, RoundsExtend st.game.rounds (f st x).game.rounds) :
    ∀ (l : List α) (st : MState),
      RoundsExtend st.game.rounds (l.foldl f st).game.rounds := by
  intro l
  induction l with
  | nil => intro st; exact roundsExtend_refl _
  | cons x xs ih =>
    intro st
    exact roundsExtend_trans (hf st x) (ih (f st x))

/-- Round and phase shape of endRound: either nothing happens, or the phase
moves to Voting with round and archive untouched. -/
theorem endRound_cases (s : MState) :
    endRound s = s ∨
    ((endRound s).game.phase = GamePhase.Voting ∧
     (endRound s).game.currentRound = s.game.currentRound ∧
     (endRound s).game.rounds = s.game.rounds) := by
  unfold endRound
  split
  next => exact Or.inl rfl
  next g heq =>
    obtain rfl := lookupGame_eq s g heq
    split
    next => exact Or.inl rfl
    next => exact Or.inr ⟨rfl, rfl, rfl⟩

theorem roundInv_of_voting {s : MState} (h : s.game.phase = GamePhase.Voting) :
    RoundInv s :=
  ⟨fun _ => Or.inr h, fun hh => by rw [h] at hh; exact absurd hh (by decide)⟩

theorem endRound_roundInv (s : MState) (h : RoundInv s) : RoundInv (endRound s) := by
  rcases endRound_cases s with heq | ⟨h1, h2, h3⟩
  · rw [heq]; exact h
  · exact roundInv_of_voting h1

theorem startNewRound_roundInv (s : MState) (now : Nat) :
    RoundInv (startNewRound s now) :=
  ⟨fun _ => Or.inl rfl, fun _ => rfl⟩

theorem startNewRound_rounds (s : MState) (now : Nat) :
    (startNewRound s now).game.rounds = s.game.rounds := rfl

theorem checkGameOver_view (s : MState) (now : Nat) :
    (checkGameOver s now).2.game.currentRound = s.game.currentRound ∧
    ((checkGameOver s now).2.game.phase = s.game.phase ∨
      (checkGameOver s now).2.game.phase = GamePhase.GameOver) ∧
    (checkGameOver s now).2.game.rounds = s.game.rounds := by
  simp only [checkGameOver]
  split
  next => exact ⟨rfl, Or.inr rfl, rfl⟩
  next => exact ⟨rfl, Or.inl rfl, rfl⟩

theorem tallyElim_phase_rounds (s : MState) (round : Round) :
    (tallyElim s s.game round).game.phase = s.game.phase ∧
    (tallyElim s s.game round).game.rounds = s.game.rounds := by
  unfold tallyElim
  split
  next =>
    split
    next => exact ⟨rfl, rfl⟩
    next => exact ⟨rfl, rfl⟩
  next => exact ⟨rfl, rfl⟩

theorem tallyArchive_props (afterElim : MState) (round : Round) :
    (tallyArchive afterElim round).game.currentRound = none ∧
    (tallyArchive afterElim round).game.phase = afterElim.game.phase ∧
    (tallyArchive afterElim round).game.rounds =
      afterElim.game.rounds ++ [afterElim.game.currentRound.getD round] :=
  ⟨rfl, rfl, rfl⟩

theorem tallyFinish_game (s3 : MState) (now : Nat) :
    (tallyFinish s3 now).game = (checkGameOver s3 now).2.game := by
  unfold tallyFinish
  split
  next s4 heq => rw [heq]
  next s4 heq => show s4.game = _; rw [heq]

/-- Round and phase shape of tallyVotes: either nothing happens, or the
current round becomes empty, the phase stays or becomes GameOver, and the
round archive is only extended. -/
theorem tallyVotes_props (s : MState) (now : Nat) :
    tallyVotes s now = s ∨
    ((tallyVotes s now).game.currentRound = none ∧
     ((tallyVotes s now).game.phase = s.game.phase ∨
      (tallyVotes s now).game.phase = GamePhase.GameOver) ∧
     RoundsExtend s.game.rounds (tallyVotes s now).game.rounds) := by
  unfold tallyVotes
  split
  next => exact Or.inl rfl
  next g heq =>
    obtain rfl := lookupGame_eq s g heq
    split
    next => exact Or.inl rfl
    next round heq2 =>
      right
      have hfin := tallyFinish_game (tallyArchive (tallyElim s s.game round) round) now
      have harch := tallyArchive_props (tallyElim s s.game round) round
      have helim := tallyElim_phase_rounds s round
      have hcg := checkGameOver_view (tallyArchive (tallyElim s s.game round) round) now
      refine ⟨?_, ?_, ?_⟩
      · rw [hfin, hcg.1, harch.1]
      · rcases hcg.2.1 with h | h
        · left; rw [hfin, h, harch.2.1, helim.1]
        · right; rw [hfin, h]
      · rw [hfin, hcg.2.2, harch.2.2, helim.2]
        exact ⟨_, rfl⟩

theorem tallyVotes_roundInv (s : MState) (now : Nat)
    (hph : s.game.phase = GamePhase.Voting) : RoundInv (tallyVotes s now) := by
  rcases tallyVotes_props s now with heq | ⟨h1, h2, h3⟩
  · rw [heq]; exact roundInv_of_voting hph
  · constructor
    · intro hsome; rw [h1] at hsome; exact absurd hsome (by simp)
    · intro hph'
      rcases h2 with h | h
      · rw [h, hph] at hph'; exact absurd hph' (by decide)
      · rw [h] at hph'; exact absurd hph' (by decide)

theorem tallyVotes_rounds (s : MState) (now : Nat) :
    RoundsExtend s.game.rounds (tallyVotes s now).game.rounds := by
  rcases tallyVotes_props s now with heq | ⟨-, -, h3⟩
  · rw [heq]; exact roundsExtend_refl _
  · exact h3

theorem castVoteRecorded_phase (s : MState) (g : Game) (round : Round)
    (v t : String) : (castVoteRecorded s g round v t).game.phase = g.phase := rfl

theorem castVoteRecorded_rounds (s : MState) (g : Game) (round : Round)
    (v t : String) : (castVoteRecorded s g round v t).game.rounds = g.rounds := rfl

/-- Round and phase shape of castVote: nothing happens, or the vote is
recorded during Voting, or the synchronous tally runs. -/
theorem castVote_shape (s : MState) (v t : String) (now : Nat) :
    (castVote s v t now).2 = s ∨
    (s.game.phase = GamePhase.Voting ∧
      ((castVote s v t now).2.game.phase = GamePhase.Voting ∧
        (castVote s v t now).2.game.rounds = s.game.rounds) ∨
     s.game.phase = GamePhase.Voting ∧
      ∃ s1 : MState, s1.game.phase = GamePhase.Voting ∧
        s1.game.rounds = s.game.rounds ∧
        (castVote s v t now).2 = tallyVotes s1 now) := by
  by_cases hreg : s.inRegistry = true
  · have hlk : lookupGame s = some s.game := by simp [lookupGame, hreg]
    by_cases hph : s.game.phase = GamePhase.Voting
    · rcases hr : s.game.currentRound with _ | round
      · rw [castVote_noRound s s.game v t now hlk hph hr]; exact Or.inl rfl
      · rcases hfv : s.game.players.find? (fun p => p.id = v) with _ | voter
        · rw [castVote_badPlayers s s.game round v t now hlk hph hr
            (Or.inl (by unfold isLivingPlayer; rw [hfv]))]
          exact Or.inl rfl
        · rcases hft : s.game.players.find? (fun p => p.id = t) with _ | target
          · rw [castVote_badPlayers s s.game round v t now hlk hph hr
              (Or.inr (by unfold isLivingPlayer; rw [hft]))]
            exact Or.inl rfl
          · cases helimv : voter.isEliminated
            · cases helimt : target.isEliminated
              · rw [castVote_success s s.game round voter target v t now hlk hph hr
                  hfv hft helimv helimt]
                right
                split
                next =>
                  right
                  refine ⟨hph, castVoteRecorded s s.game round v t, ?_, ?_, rfl⟩
                  · rw [castVoteRecorded_phase]; exact hph
                  · rw [castVoteRecorded_rounds]
                next =>
                  left
                  refine ⟨hph, ?_, ?_⟩
                  · show (castVoteRecorded s s.game round v t).game.phase = _
                    rw [castVoteRecorded_phase]; exact hph
                  · show (castVoteRecorded s s.game round v t).game.rounds = _
                    rw [castVoteRecorded_rounds]
              · rw [castVote_badPlayers s s.game round v t now hlk hph hr
                  (Or.inr (by unfold isLivingPlayer; rw [hft]; simp [helimt]))]
                exact Or.inl rfl
            · rw [castVote_badPlayers s s.game round v t now hlk hph hr
                (Or.inl (by unfold isLivingPlayer; rw [hfv]; simp [helimv]))]
              exact Or.inl rfl
    · rw [castVote_notVoting s s.game v t now hlk hph]; exact Or.inl rfl
  · rw [castVote_noRegistry s v t now (by simp [lookupGame, hreg])]
    exact Or.inl rfl

theorem castVote_roundInv (s : MState) (v t : String) (now : Nat)
    (h : RoundInv s) : RoundInv (castVote s v t now).2 := by
  rcases castVote_shape s v t now with heq | hsh
  · rw [heq]; exact h
  · rcases hsh with ⟨-, hph', -⟩ | ⟨-, s1, hph1, -, heq⟩
    · exact roundInv_of_voting hph'
    · rw [heq]; exact tallyVotes_roundInv s1 now hph1

theorem castVote_rounds (s : MState) (v t : String) (now : Nat) :
    RoundsExtend s.game.rounds (castVote s v t now).2.game.rounds := by
  rcases castVote_shape s v t now with heq | hsh
  · rw [heq]; exact roundsExtend_refl _
  · rcases hsh with ⟨-, -, hrds⟩ | ⟨-, s1, -, hrds, heq⟩
    · rw [hrds]; exact roundsExtend_refl _
    · rw [heq, ← hrds]; exact tallyVotes_rounds s1 now

theorem makeAIVotes_roundInv (s : MState) (picks : List Nat) (now : Nat)
    (h : RoundInv s) : RoundInv (makeAIVotes s picks now) := by
  unfold makeAIVotes
  apply foldl_preserves RoundInv
  · intro st pp hst
    split
    next => exact castVote_roundInv st _ _ now hst
    next => exact hst
  · exact h

theorem makeAIVotes_rounds (s : MState) (picks : List Nat) (now : Nat) :
    RoundsExtend s.game.rounds (makeAIVotes s picks now).game.rounds := by
  unfold makeAIVotes
  apply foldl_roundsExtend
  intro st pp
  split
  next => exact castVote_rounds st _ _ now
  next => exact roundsExtend_refl _

theorem aiChatTick_view (s : MState) (msgs : List (String × String)) (now : Nat) :
    SameGameView s (aiChatTick s msgs now) := by
  unfold aiChatTick
  split
  next => exact ⟨rfl, rfl, rfl⟩
  next g heq =>
    obtain rfl := lookupGame_eq s g heq
    split
    next => exact ⟨rfl, rfl, rfl⟩
    next =>
      split
      next => exact ⟨rfl, rfl, rfl⟩
      next =>
        apply foldl_view
        intro st pm
        split
        next cm st1 heq2 =>
          have hst1 : st1 = (addChatMessage st pm.1.id pm.2.1 pm.2.2 now).2 := by
            rw [heq2]
          subst hst1
          exact sameGameView_trans (addChatMessage_view st pm.1.id pm.2.1 pm.2.2 now)
            ⟨rfl, rfl, rfl⟩
        next st1 heq2 =>
          have hst1 : st1 = (addChatMessage st pm.1.id pm.2.1 pm.2.2 now).2 := by
            rw [heq2]
          subst hst1
          exact addChatMessage_view st pm.1.id pm.2.1 pm.2.2 now

/-- Round and phase shape of startGame: nothing happens, or a fresh round
is open in RoundInProgress with the archive untouched. -/
theorem startGame_shape (s : MState) (i1 n1 i2 n2 : String)
    (sh : List Player) (now : Nat) :
    (startGame s i1 n1 i2 n2 sh now).2 = s ∨
    ((startGame s i1 n1 i2 n2 sh now).2.game.phase = GamePhase.RoundInProgress ∧
     (startGame s i1 n1 i2 n2 sh now).2.game.currentRound.isSome = true ∧
     (startGame s i1 n1 i2 n2 sh now).2.game.rounds = s.game.rounds) := by
  unfold startGame
  split
  next => exact Or.inl rfl
  next g heq =>
    obtain rfl := lookupGame_eq s g heq
    split
    next => exact Or.inl rfl
    next => exact Or.inr ⟨rfl, rfl, rfl⟩

theorem gameStartHandler_snd (s : MState) (i1 n1 i2 n2 : String)
    (sh : List Player) (now : Nat) :
    (gameStartHandler s i1 n1 i2 n2 sh now).2 = s ∨
    (gameStartHandler s i1 n1 i2 n2 sh now).2 =
      (startGame s i1 n1 i2 n2 sh now).2 := by
  unfold gameStartHandler
  split
  next => exact Or.inl rfl
  next =>
    split
    next g2 s1 heq => right; rw [heq]
    next s1 heq => right; rw [heq]

theorem step_roundInv {s s' : MState} (hstep : Step s s') (h : RoundInv s) :
    RoundInv s' := by
  cases hstep with
  | joinStep a b now => exact roundInv_of_view (joinGame_view s a b now) h
  | readyStep pid b => exact roundInv_of_view (setPlayerReady_view s pid b) h
  | startStep i1 n1 i2 n2 sh now hsh =>
    rcases gameStartHandler_snd s i1 n1 i2 n2 sh now with heq | heq
    · rw [heq]; exact h
    · rw [heq]
      rcases startGame_shape s i1 n1 i2 n2 sh now with heq2 | ⟨h1, h2, -⟩
      · rw [heq2]; exact h
      · exact ⟨fun _ => Or.inl h1, fun _ => h2⟩
  | voteStep v t now => exact castVote_roundInv s v t now h
  | chatStep pid m mid now =>
    exact roundInv_of_view (addChatMessage_view s pid m mid now) h
  | removeStep pid => exact roundInv_of_view (removePlayer_view s pid) h
  | roundTimerStep hg => exact endRound_roundInv _ h
  | aiVotesStep picks now hg => exact makeAIVotes_roundInv _ picks now h
  | nextRoundStep now hg => exact startNewRound_roundInv _ now
  | chatTickStep msgs now hg =>
    exact roundInv_of_view (aiChatTick_view s msgs now) h

theorem step_roundsExtend {s s' : MState} (hstep : Step s s') :
    RoundsExtend s.game.rounds s'.game.rounds := by
  cases hstep with
  | joinStep a b now => exact roundsExtend_of_view (joinGame_view s a b now)
  | readyStep pid b => exact roundsExtend_of_view (setPlayerReady_view s pid b)
  | startStep i1 n1 i2 n2 sh now hsh =>
    rcases gameStartHandler_snd s i1 n1 i2 n2 sh now with heq | heq
    · rw [heq]; exact roundsExtend_refl _
    · rw [heq]
      rcases startGame_shape s i1 n1 i2 n2 sh now with heq2 | ⟨-, -, h3⟩
      · rw [heq2]; exact roundsExtend_refl _
      · rw [h3]; exact roundsExtend_refl _
  | voteStep v t now => exact castVote_rounds s v t now
  | chatStep pid m mid now =>
    exact roundsExtend_of_view (addChatMessage_view s pid m mid now)
  | removeStep pid => exact roundsExtend_of_view (removePlayer_view s pid)
  | roundTimerStep hg =>
    rcases endRound_cases { s with roundTimers := s.roundTimers - 1 } with heq | ⟨-, -, h3⟩
    · rw [heq]; exact roundsExtend_refl _
    · rw [h3]; exact roundsExtend_refl _
  | aiVotesStep picks now hg => exact makeAIVotes_rounds _ picks now
  | nextRoundStep now hg =>
    rw [startNewRound_rounds]; exact roundsExtend_refl _
  | chatTickStep msgs now hg =>
    exact roundsExtend_of_view (aiChatTick_view s msgs now)

/-- C3 (amended): in every reachable manager state an open round forces
phase RoundInProgress or Voting, phase RoundInProgress forces an open round
(during the post-tally cool-down the phase stays Voting with no open round,
so Voting does not force one), the session holds at most one open round by
construction, and every step only appends to the round archive, so closed
rounds are archived and never mutated or removed. -/
theorem round_existence_invariant :
    (∀ gid sid pname n0 s, Reachable (initState gid sid pname n0) s → RoundInv s) ∧
    (∀ s s', Step s s' → RoundsExtend s.game.rounds s'.game.rounds) := by
  constructor
  · intro gid sid pname n0 s hreach
    induction hreach with
    | refl =>
      constructor
      · intro hsome; exact absurd hsome (by simp [initState])
      · intro hph; exact absurd hph (by simp [initState])
    | tail hsteps hstep ih => exact step_roundInv hstep ih
  · intro s s' hstep
    exact step_roundsExtend hstep

/-- C3 witness: the invariant holds at the reachable post-tally state t8 of
the shared trace, and the join step from t0 to t1 only extends the archive. -/
theorem round_existence_invariant_witness :
    RoundInv t8 ∧ RoundsExtend t0.game.rounds t1.game.rounds :=
  ⟨round_existence_invariant.1 "g" "h1" "Alex" 0 t8 reach_t8,
   round_existence_invariant.2 t0 t1 (Step.joinStep t0 "h2" "Blair" 1)⟩

end TraitorsAI
